/-
Verification of the CheckMate-Website extraction / analysis / report /
delivery pipeline.

The Python sources of the repository (`TextProcessor` in
CheckMate2/utils/text_processor.py, `ImageProcessor` in
CheckMate2/utils/image_processor.py, `EmailSender` in
utils/email_sender.py) are shallowly embedded below.  External effects
are made explicit arguments:

* the generative-model call `self.model.generate_content(prompt)` is a
  `CallResult` argument (`failure` models the call raising a
  network/auth/quota exception, `success text` a returned response whose
  `.text` is `text`);
* `json.loads` is an abstract `parse : String → Option Json` argument
  (`none` models `json.JSONDecodeError`);
* the OCR call is an `OcrResult` argument, the SMTP session an
  `SmtpOutcome` argument, environment configuration an explicit record.

Python `str` values are Lean `String`s; the Python string methods the
sources use (`strip`, `lstrip`, `split('\n')`, `replace`) are
reimplemented with their exact Python semantics: `lstrip` strips a *set*
of characters (not a prefix), `replace` replaces *all* non-overlapping
occurrences left to right.  JSON values are the inductive `Json`;
numbers are modelled as integers (every number the code itself produces
is an integer; floating-point responses are out of scope).
-/
import Mathlib

namespace CheckMate

/-- JSON values, as produced by `json.loads`. -/
inductive Json where
  | null : Json
  | bool (b : Bool) : Json
  | num (n : Int) : Json
  | str (s : String) : Json
  | arr (elems : List Json) : Json
  | obj (fields : List (String × Json)) : Json

/-- Outcome of `self.model.generate_content(prompt)`: either the call raises
(network/auth/quota error) or returns a response object whose `.text` is the
given string. -/
inductive CallResult where
  | failure : CallResult
  | success (text : String) : CallResult

/-- The ASCII whitespace characters removed by Python's `str.strip()`
(the sources only ever see ASCII whitespace). -/
def isPySpace (c : Char) : Bool :=
  c == ' ' || c == '\t' || c == '\n' || c == '\r' || c == '\x0b' || c == '\x0c'

/-- Python `s.lstrip(chars)` on a character list: repeatedly drop the first
character while it belongs to the character *set* `chars`.  Python treats
the argument of `lstrip` as a set of characters, not as a literal prefix. -/
def lstripSet (chars : List Char) : List Char → List Char
  | [] => []
  | c :: rest => if chars.contains c then lstripSet chars rest else c :: rest

/-- Python `s.strip()` on a character list: drop leading and trailing
whitespace. -/
def pyStripList (l : List Char) : List Char :=
  ((l.dropWhile isPySpace).reverse.dropWhile isPySpace).reverse

/-- Python `s.strip()`. -/
def pyStrip (s : String) : String :=
  (pyStripList s.toList).asString

/-- Python `s.split('\n')` on a character list: the result always has at
least one piece and empty pieces are kept. -/
def splitNl : List Char → List (List Char)
  | [] => [[]]
  | c :: rest =>
    if c == '\n' then [] :: splitNl rest
    else
      match splitNl rest with
      | [] => [[c]]
      | p :: ps => (c :: p) :: ps

namespace TextProcessor

/-- The five chained `lstrip` calls of `extract_requirements`
(`.lstrip('- ').lstrip('* ').lstrip('1. ').lstrip('2. ').lstrip('3. ')`,
text_processor.py line 66), leftmost applied first.  Each call strips a
character *set*, per Python `lstrip` semantics. -/
def stripMarkers (l : List Char) : List Char :=
  lstripSet ['3', '.', ' ']
    (lstripSet ['2', '.', ' ']
      (lstripSet ['1', '.', ' ']
        (lstripSet ['*', ' ']
          (lstripSet ['-', ' '] l))))

/-- The non-JSON fallback of `extract_requirements` (text_processor.py
lines 64-68): `lines = response.text.strip().split('\n')`, keep the lines
whose `line.strip()` is truthy, apply the chained `lstrip` calls to
`line.strip()`, and drop results that became empty. -/
def extractFallback (text : String) : List String :=
  let lines := splitNl (pyStripList text.toList)
  let requirements :=
    (lines.filter (fun line => pyStripList line ≠ [])).map
      (fun line => stripMarkers (pyStripList line))
  (requirements.filter (fun req => req ≠ [])).map List.asString

/-- `TextProcessor.extract_requirements` (text_processor.py lines 34-72).
If the model call raises, return `[]`.  Otherwise try `json.loads` on the
response text: a successfully parsed JSON *list* is returned as-is; any
other outcome (parse error, or parsed JSON that is not a list) falls back
to line splitting.  The fallback produces Python strings; they are
injected into `Json` with `Json.str` to give the function a single result
type. -/
def extract_requirements (parse : String → Option Json) : CallResult → List Json
  | CallResult.failure => []
  | CallResult.success text =>
    match parse text with
    | some (Json.arr elems) => elems
    | _ => (extractFallback text).map Json.str

/-- `TextProcessor.analyze_compliance` (text_processor.py lines 74-144).
If the model call raises, return the zero-valued fallback dict.  Otherwise
try `json.loads` on the response text: a successfully parsed value is
returned verbatim (no validation); a parse failure produces the
deterministic score-70 fallback with one synthetic entry per requirement.
The prompt built from `requirements` and `_submission` only feeds the
abstracted model call, so it is not reconstructed here. -/
def analyze_compliance (parse : String → Option Json) (requirements : List String)
    (_submission : String) : CallResult → Json
  | CallResult.failure =>
    Json.obj
      [("overall_score", Json.num 0),
       ("requirements_analysis", Json.arr []),
       ("general_feedback", Json.str "분석 중 오류가 발생했습니다."),
       ("improvement_suggestions", Json.arr [])]
  | CallResult.success text =>
    match parse text with
    | some result => result
    | none =>
      Json.obj
        [("overall_score", Json.num 70),
         ("requirements_analysis", Json.arr (requirements.map fun req =>
            Json.obj
              [("requirement", Json.str req),
               ("satisfied", Json.bool true),
               ("score", Json.num 70),
               ("feedback", Json.str "기본적인 요구사항 충족"),
               ("suggestions", Json.arr [Json.str "더 구체적인 내용 추가 필요"])])),
         ("general_feedback", Json.str "전반적으로 요구사항을 충족하지만 개선의 여지가 있습니다."),
         ("improvement_suggestions", Json.arr [Json.str "더 구체적인 예시 추가", Json.str "논리적 구조 개선"])]

end TextProcessor

/-- `pat` is a literal prefix of the second list. -/
def leadsWith : List Char → List Char → Bool
  | [], _ => true
  | _ :: _, [] => false
  | p :: ps, c :: cs => p == c && leadsWith ps cs

/-- Defined from the spec's words (claim C2, for comparison with the
source-derived `TextProcessor.stripMarkers`): strip at most one leading
bullet marker (`- `, `* `) or one leading numbered-list marker (only the
three literal prefixes `1. `, `2. `, `3. `) from a line, and remove no
other leading characters. -/
def stripMarkerSpec (l : List Char) : List Char :=
  if leadsWith ['-', ' '] l then l.drop 2
  else if leadsWith ['*', ' '] l then l.drop 2
  else if leadsWith ['1', '.', ' '] l then l.drop 3
  else if leadsWith ['2', '.', ' '] l then l.drop 3
  else if leadsWith ['3', '.', ' '] l then l.drop 3
  else l

/-- Defined from the spec's words (claim C2, for comparison with the
source-derived `TextProcessor.extractFallback`): the non-empty trimmed
lines of the response with at most one leading marker stripped per line
and lines that are empty after stripping discarded. -/
def extractFallbackSpec (text : String) : List String :=
  let lines := splitNl (pyStripList text.toList)
  let trimmed := (lines.map pyStripList).filter (fun line => line ≠ [])
  ((trimmed.map stripMarkerSpec).filter (fun req => req ≠ [])).map List.asString

/-- The character sets stripped, in order, by the chained `lstrip` calls of
`extract_requirements`. -/
def markerSets : List (List Char) := [['-', ' '], ['*', ' '], ['1', '.', ' '], ['2', '.', ' '], ['3', '.', ' ']]

/-- Counterexample to C2: on the non-JSON response `"--a"` the code strips
*every* leading `-` and space (Python `lstrip` semantics), returning
`["a"]`, whereas the claimed behaviour (one literal `"- "` prefix at most,
no other leading characters removed) would leave `"--a"` unchanged. -/
theorem extract_requirements_fallback_cx :
    TextProcessor.extract_requirements (fun _ => none) (CallResult.success "--a") ≠
      (extractFallbackSpec "--a").map Json.str := by
  have h1 : TextProcessor.extract_requirements (fun _ => none) (CallResult.success "--a") =
      [Json.str "a"] := rfl
  have h2 : (extractFallbackSpec "--a").map Json.str = [Json.str "--a"] := rfl
  rw [h1, h2]
  intro h
  simp only [List.cons.injEq, Json.str.injEq, and_true] at h
  exact absurd h (by decide)

/-- C2 (amended): for every model response that does not parse as JSON,
`extract_requirements` returns the lines of the whitespace-trimmed
response, each line trimmed and then processed by the five chained
character-set strips — all leading characters in `{-, space}`, then in
`{*, space}`, then in `{1, ., space}`, then in `{2, ., space}`, then in
`{3, ., space}` — with lines that are empty before or after stripping
discarded. -/
theorem extract_requirements_fallback_amended
    (parse : String → Option Json) (text : String) (h : parse text = none) :
    TextProcessor.extract_requirements parse (CallResult.success text) =
      ((((splitNl (pyStripList text.toList)).filter
            (fun line => pyStripList line ≠ [])).map
          (fun line => markerSets.foldl (fun acc cs => lstripSet cs acc) (pyStripList line))).filter
        (fun req => req ≠ [])).map (fun req => Json.str req.asString) := by
  simp [TextProcessor.extract_requirements, h, TextProcessor.extractFallback,
    TextProcessor.stripMarkers, markerSets, List.map_map, Function.comp]

/-- Witness for C2 (amended): the fallback applied to the concrete
response `"1. item"`. -/
theorem extract_requirements_fallback_amended_witness :
    TextProcessor.extract_requirements (fun _ => none) (CallResult.success "1. item") =
      [Json.str "item"] := by
  rw [extract_requirements_fallback_amended (fun _ => none) "1. item" rfl]
  rfl

/-- C1: `analyze_compliance` never raises past its boundary (it is a total
function of its explicit inputs) and follows the three-tier policy: on
call failure it returns the zero-valued result (`overall_score = 0`, empty
analysis list, generic failure feedback, no suggestions); on parse failure
it returns `overall_score = 70` with exactly one synthetic entry per
supplied requirement, in input order, each with the input requirement
string, `satisfied = true` and `score = 70`; on parse success the parsed
value is returned verbatim with no field validation. -/
theorem analyze_compliance_three_tier :
    (∀ (parse : String → Option Json) (reqs : List String) (sub : String),
      TextProcessor.analyze_compliance parse reqs sub CallResult.failure =
        Json.obj
          [("overall_score", Json.num 0),
           ("requirements_analysis", Json.arr []),
           ("general_feedback", Json.str "분석 중 오류가 발생했습니다."),
           ("improvement_suggestions", Json.arr [])]) ∧
    (∀ (parse : String → Option Json) (reqs : List String) (sub text : String),
      parse text = none →
      TextProcessor.analyze_compliance parse reqs sub (CallResult.success text) =
        Json.obj
          [("overall_score", Json.num 70),
           ("requirements_analysis", Json.arr (reqs.map fun req =>
              Json.obj
                [("requirement", Json.str req),
                 ("satisfied", Json.bool true),
                 ("score", Json.num 70),
                 ("feedback", Json.str "기본적인 요구사항 충족"),
                 ("suggestions", Json.arr [Json.str "더 구체적인 내용 추가 필요"])])),
           ("general_feedback", Json.str "전반적으로 요구사항을 충족하지만 개선의 여지가 있습니다."),
           ("improvement_suggestions", Json.arr [Json.str "더 구체적인 예시 추가", Json.str "논리적 구조 개선"])]) ∧
    (∀ (parse : String → Option Json) (reqs : List String) (sub text : String) (j : Json),
      parse text = some j →
      TextProcessor.analyze_compliance parse reqs sub (CallResult.success text) = j) := by
  refine ⟨fun parse reqs sub => rfl, ?_, ?_⟩
  · intro parse reqs sub text h
    simp [TextProcessor.analyze_compliance, h]
  · intro parse reqs sub text j h
    simp [TextProcessor.analyze_compliance, h]

/-- Witness for C1: the three tiers evaluated at concrete inputs. -/
theorem analyze_compliance_three_tier_witness :
    TextProcessor.analyze_compliance (fun _ => none) ["조건1"] "제출물" (CallResult.success "oops") =
      Json.obj
        [("overall_score", Json.num 70),
         ("requirements_analysis", Json.arr
            [Json.obj
              [("requirement", Json.str "조건1"),
               ("satisfied", Json.bool true),
               ("score", Json.num 70),
               ("feedback", Json.str "기본적인 요구사항 충족"),
               ("suggestions", Json.arr [Json.str "더 구체적인 내용 추가 필요"])]]),
         ("general_feedback", Json.str "전반적으로 요구사항을 충족하지만 개선의 여지가 있습니다."),
         ("improvement_suggestions", Json.arr [Json.str "더 구체적인 예시 추가", Json.str "논리적 구조 개선"])] ∧
    TextProcessor.analyze_compliance (fun _ => some (Json.num 1)) [] "제출물" (CallResult.success "x") =
      Json.num 1 :=
  ⟨analyze_compliance_three_tier.2.1 (fun _ => none) ["조건1"] "제출물" "oops" rfl,
   analyze_compliance_three_tier.2.2 (fun _ => some (Json.num 1)) [] "제출물" "x" (Json.num 1) rfl⟩

/-- C4: for every model response that parses as a JSON array,
`extract_requirements` returns that array unchanged: same elements, same
order, no deduplication, and no validation of element types beyond the
result being a list. -/
theorem extract_requirements_verbatim_array
    (parse : String → Option Json) (text : String) (elems : List Json)
    (h : parse text = some (Json.arr elems)) :
    TextProcessor.extract_requirements parse (CallResult.success text) = elems := by
  simp [TextProcessor.extract_requirements, h]

/-- Witness for C4: a parsed array with mixed element types (a string and a
number) is returned untouched. -/
theorem extract_requirements_verbatim_array_witness :
    TextProcessor.extract_requirements
      (fun _ => some (Json.arr [Json.str "a", Json.num 3, Json.str "a"]))
      (CallResult.success "resp") = [Json.str "a", Json.num 3, Json.str "a"] :=
  extract_requirements_verbatim_array
    (fun _ => some (Json.arr [Json.str "a", Json.num 3, Json.str "a"]))
    "resp" [Json.str "a", Json.num 3, Json.str "a"] rfl

/-- Worker for Python `s.replace(pat, rep)`: scan left to right; `skip`
counts characters of an already-matched occurrence still to be consumed.
On a match the replacement is emitted and the matched characters are
skipped; the replacement text is not rescanned. -/
def replaceAllAux (pat rep : List Char) : Nat → List Char → List Char
  | _, [] => []
  | skip + 1, _ :: rest => replaceAllAux pat rep skip rest
  | 0, c :: rest =>
    if leadsWith pat (c :: rest) then
      rep ++ replaceAllAux pat rep (pat.length - 1) rest
    else
      c :: replaceAllAux pat rep 0 rest

/-- Python `s.replace(pat, rep)` on character lists: replace *all*
non-overlapping occurrences of `pat`, scanning left to right.  (The
sources never call `replace` with an empty pattern.) -/
def replaceAll (pat rep s : List Char) : List Char :=
  replaceAllAux pat rep 0 s

/-- Python `s.replace(pat, rep)`. -/
def pyReplace (s pat rep : String) : String :=
  (replaceAll pat.toList rep.toList s.toList).asString

/-- `pat` occurs somewhere in the second list. -/
def containsSeq (pat : List Char) : List Char → Bool
  | [] => leadsWith pat []
  | c :: rest => leadsWith pat (c :: rest) || containsSeq pat rest

namespace EmailSender

/-- The markdown-to-HTML conversion portion of
`EmailSender._create_html_email` (email_sender.py lines 93-104): the chain
of Python `str.replace` calls applied to the report body.  The enclosing
fixed HTML template (lines 107-155) is input-independent boilerplate and
is not reconstructed; the claims concern this conversion of the body. -/
def create_html_email_body (report_content : String) : String :=
  let h := report_content
  let h := pyReplace (pyReplace h "# " "<h1>") "\n" "</h1>\n"
  let h := pyReplace (pyReplace h "## " "<h2>") "\n" "</h2>\n"
  let h := pyReplace (pyReplace h "### " "<h3>") "\n" "</h3>\n"
  let h := pyReplace (pyReplace h "**" "<strong>") "**" "</strong>"
  pyReplace h "\n" "<br>\n"

/-- The same conversion with the second bold replacement
(`.replace("**", "</strong>")`, email_sender.py line 101) omitted; used to
state that that replacement never changes the string. -/
def create_html_email_body_singleBold (report_content : String) : String :=
  let h := report_content
  let h := pyReplace (pyReplace h "# " "<h1>") "\n" "</h1>\n"
  let h := pyReplace (pyReplace h "## " "<h2>") "\n" "</h2>\n"
  let h := pyReplace (pyReplace h "### " "<h3>") "\n" "</h3>\n"
  let h := pyReplace h "**" "<strong>"
  pyReplace h "\n" "<br>\n"

end EmailSender

/-- The list contains two adjacent asterisks. -/
def hasDoubleStar : List Char → Bool
  | a :: b :: t => (a == '*' && b == '*') || hasDoubleStar (b :: t)
  | _ => false

theorem hasDoubleStar_tail {c : Char} {l : List Char}
    (h : hasDoubleStar (c :: l) = false) : hasDoubleStar l = false := by
  cases l with
  | nil => rfl
  | cons b t =>
    cases hb : hasDoubleStar (b :: t) with
    | false => rfl
    | true => simp [hasDoubleStar, hb] at h

theorem hasDoubleStar_cons_of_ne {a : Char} (hne : (a == '*') = false) (l : List Char) :
    hasDoubleStar (a :: l) = hasDoubleStar l := by
  cases l with
  | nil => rfl
  | cons b t => simp [hasDoubleStar, hne]

theorem hasDoubleStar_strongOpen_append (l : List Char) :
    hasDoubleStar ("<strong>".toList ++ l) = hasDoubleStar l := by
  show hasDoubleStar ('<' :: 's' :: 't' :: 'r' :: 'o' :: 'n' :: 'g' :: '>' :: l) = hasDoubleStar l
  rw [hasDoubleStar_cons_of_ne (by decide), hasDoubleStar_cons_of_ne (by decide),
    hasDoubleStar_cons_of_ne (by decide), hasDoubleStar_cons_of_ne (by decide),
    hasDoubleStar_cons_of_ne (by decide), hasDoubleStar_cons_of_ne (by decide),
    hasDoubleStar_cons_of_ne (by decide), hasDoubleStar_cons_of_ne (by decide)]

theorem leadsWith_star_star (l : List Char) :
    leadsWith ['*', '*'] l = true ↔ ∃ t, l = '*' :: '*' :: t := by
  cases l with
  | nil => simp [leadsWith]
  | cons c rest =>
    cases rest with
    | nil => simp [leadsWith]
    | cons d t =>
      simp only [leadsWith, Bool.and_eq_true, beq_iff_eq, Bool.and_true]
      constructor
      · rintro ⟨h1, h2⟩
        exact ⟨t, by rw [← h1, ← h2]⟩
      · rintro ⟨t', ht⟩
        injection ht with ht1 ht2
        injection ht2 with ht2 ht3
        exact ⟨ht1.symm, ht2.symm⟩

/-- After globally replacing `**` by `<strong>`, no two adjacent asterisks
remain in the string. -/
theorem hasDoubleStar_replaceAllAux_star :
    ∀ (l : List Char) (skip : Nat),
      hasDoubleStar (replaceAllAux ['*', '*'] "<strong>".toList skip l) = false := by
  intro l
  induction l with
  | nil => intro skip; cases skip <;> rfl
  | cons c rest ih =>
    intro skip
    cases skip with
    | succ k => exact ih k
    | zero =>
      by_cases hl : leadsWith ['*', '*'] (c :: rest) = true
      · rw [replaceAllAux, if_pos hl, hasDoubleStar_strongOpen_append]
        exact ih _
      · rw [replaceAllAux, if_neg hl]
        cases hres : replaceAllAux ['*', '*'] "<strong>".toList 0 rest with
        | nil => rfl
        | cons y ys =>
          have htail : hasDoubleStar (y :: ys) = false := by rw [← hres]; exact ih 0
          by_cases hc : (c == '*') = true
          · have hcc : c = '*' := by exact beq_iff_eq.mp hc
            subst hcc
            cases rest with
            | nil => simp [replaceAllAux] at hres
            | cons d rest' =>
              have hd : (d == '*') = false := by
                cases hdd : (d == '*') with
                | false => rfl
                | true =>
                  have : d = '*' := beq_iff_eq.mp hdd
                  subst this
                  exact absurd ((leadsWith_star_star _).mpr ⟨rest', rfl⟩) hl
              have hy : y = d := by
                rw [replaceAllAux, if_neg ?hne] at hres
                case hne =>
                  intro hcon
                  obtain ⟨t, ht⟩ := (leadsWith_star_star _).mp hcon
                  cases ht
                  simp at hd
                exact (List.cons.injEq _ _ _ _ ▸ hres).1.symm
              simp only [hasDoubleStar, htail, Bool.or_false, Bool.and_eq_true]
              rw [hy]
              simp [hd]
          · have hcf : (c == '*') = false := by
              cases hcc : (c == '*') with
              | false => rfl
              | true => exact absurd hcc hc
            simp only [hasDoubleStar, htail, Bool.or_false]
            simp [hcf]

/-- A string with no adjacent asterisks is left unchanged by
`replace("**", anything)`. -/
theorem replaceAllAux_star_of_no_double :
    ∀ (l : List Char) (rep : List Char), hasDoubleStar l = false →
      replaceAllAux ['*', '*'] rep 0 l = l := by
  intro l
  induction l with
  | nil => intro rep _; rfl
  | cons c rest ih =>
    intro rep h
    have hl : leadsWith ['*', '*'] (c :: rest) ≠ true := by
      intro hcon
      obtain ⟨t, ht⟩ := (leadsWith_star_star _).mp hcon
      cases ht
      simp [hasDoubleStar] at h
    rw [replaceAllAux, if_neg hl, ih rep (hasDoubleStar_tail h)]

/-- Counterexample to C3: the one-pair input `**b**` is converted to
`<strong>b<strong>` — both bold markers become opening tags and the
produced HTML contains no `</strong>` at all, because the first
`replace("**", "<strong>")` already replaced every occurrence. -/
theorem create_html_email_bold_cx :
    EmailSender.create_html_email_body "**b**" = "<strong>b<strong>" ∧
      containsSeq "</strong>".toList "<strong>b<strong>".toList = false := by
  exact ⟨rfl, rfl⟩

/-- C3 (amended): in the markdown-to-HTML conversion every occurrence of
`**` is replaced by the opening tag `<strong>`; the subsequent
`replace("**", "</strong>")` finds no remaining `**` and leaves the string
unchanged, so the conversion never produces a closing tag.  Formally, the
conversion equals the same chain with the closing-tag replacement
omitted. -/
theorem create_html_email_bold_single_replace (report_content : String) :
    EmailSender.create_html_email_body report_content =
      EmailSender.create_html_email_body_singleBold report_content := by
  have key : ∀ s : String, pyReplace (pyReplace s "**" "<strong>") "**" "</strong>" =
      pyReplace s "**" "<strong>" := by
    intro s
    show (replaceAllAux ['*', '*'] "</strong>".toList 0
        (replaceAllAux ['*', '*'] "<strong>".toList 0 s.toList)).asString =
      (replaceAllAux ['*', '*'] "<strong>".toList 0 s.toList).asString
    rw [replaceAllAux_star_of_no_double _ _ (hasDoubleStar_replaceAllAux_star s.toList 0)]
  have hgen : ∀ s : String,
      pyReplace (pyReplace (pyReplace s "**" "<strong>") "**" "</strong>") "\n" "<br>\n" =
        pyReplace (pyReplace s "**" "<strong>") "\n" "<br>\n" := fun s => by rw [key s]
  exact hgen _

namespace ImageProcessor

/-- The sentinel `_clean_text` returns for empty recognition output
(image_processor.py line 111). -/
def noTextSentinel : String := "이미지에서 텍스트를 추출할 수 없습니다."

/-- `ImageProcessor._clean_text` (image_processor.py lines 100-128):
`if not text:` return the sentinel; otherwise split on newlines, strip
each line, keep the non-empty ones, and rejoin with newlines.  Python's
`not text` is true only for the *empty* string. -/
def clean_text (text : String) : String :=
  if text = "" then noTextSentinel
  else
    let lines := splitNl text.toList
    let cleaned_lines := (lines.map pyStripList).filter (fun line => line ≠ [])
    (List.intercalate ['\n'] cleaned_lines).asString

/-- Outcome of the OCR steps inside `extract_text_from_image`: either
`pytesseract.image_to_string` (after `Image.open` and `_preprocess_image`)
returns recognized text, or some step raises an exception rendered as
`msg`. -/
inductive OcrResult where
  | ok (text : String) : OcrResult
  | error (msg : String) : OcrResult

/-- `ImageProcessor.extract_text_from_image` (image_processor.py lines
37-65): clean the recognized text, or catch any exception and return a
human-readable error string. -/
def extract_text_from_image : OcrResult → String
  | OcrResult.ok text => clean_text text
  | OcrResult.error msg => "이미지 처리 중 오류가 발생했습니다: " ++ msg

end ImageProcessor

/-- Counterexample to C5: for the whitespace-only recognition output
`" "` — output that contains no text — the adapter returns the *empty
string*, not the "no text found" sentinel: Python's `not text` is true
only for the empty string, and a whitespace-only text cleans to
nothing. -/
theorem extract_text_whitespace_cx :
    ImageProcessor.extract_text_from_image (ImageProcessor.OcrResult.ok " ") = "" ∧
      ImageProcessor.noTextSentinel ≠ "" := by
  exact ⟨rfl, by decide⟩

/-- Every piece of `splitNl l` consists of characters of `l` other than
the newline; in particular if every character of `l` is whitespace, every
piece is all-whitespace. -/
theorem splitNl_all_isPySpace :
    ∀ l : List Char, l.all isPySpace = true →
      ∀ p ∈ splitNl l, p.all isPySpace = true := by
  intro l
  induction l with
  | nil =>
    intro _ p hp
    simp [splitNl] at hp
    simp [hp]
  | cons c rest ih =>
    intro h p hp
    rw [List.all_cons, Bool.and_eq_true] at h
    by_cases hc : c == '\n'
    · rw [splitNl, if_pos hc] at hp
      rcases List.mem_cons.mp hp with hp | hp
      · simp [hp]
      · exact ih h.2 p hp
    · rw [splitNl, if_neg hc] at hp
      cases hrest : splitNl rest with
      | nil =>
        rw [hrest] at hp
        rcases List.mem_cons.mp hp with hp | hp
        · rw [hp, List.all_cons, h.1]; rfl
        · simp at hp
      | cons q qs =>
        rw [hrest] at hp
        rcases List.mem_cons.mp hp with hp | hp
        · rw [hp, List.all_cons, Bool.and_eq_true]
          exact ⟨h.1, ih h.2 q (hrest ▸ List.mem_cons_self q qs)⟩
        · exact ih h.2 p (hrest ▸ List.mem_cons.mpr (Or.inr hp))

/-- Stripping an all-whitespace line yields the empty line. -/
theorem pyStripList_of_all_space {l : List Char} (h : l.all isPySpace = true) :
    pyStripList l = [] := by
  unfold pyStripList
  rw [List.dropWhile_eq_nil_iff.mpr (fun x hx => List.all_eq_true.mp h x hx)]
  rfl

/-- C5 (amended): the fixed "no text found" sentinel is returned exactly
for the *empty* recognition output; a whitespace-only non-empty output is
cleaned to the empty string (every line strips to nothing), so the
adapter can return the empty string for "no text" outputs. -/
theorem extract_text_no_text_amended :
    ImageProcessor.extract_text_from_image (ImageProcessor.OcrResult.ok "") =
      ImageProcessor.noTextSentinel ∧
    ∀ s : String, s ≠ "" → s.toList.all isPySpace = true →
      ImageProcessor.extract_text_from_image (ImageProcessor.OcrResult.ok s) = "" := by
  constructor
  · rfl
  · intro s hne hsp
    show ImageProcessor.clean_text s = ""
    unfold ImageProcessor.clean_text
    rw [if_neg hne]
    have hfilter :
        ((splitNl s.toList).map pyStripList).filter (fun line => line ≠ []) = [] := by
      rw [List.filter_eq_nil_iff]
      intro a ha
      obtain ⟨p, hp, hpa⟩ := List.mem_map.mp ha
      have : pyStripList p = [] :=
        pyStripList_of_all_space (splitNl_all_isPySpace s.toList hsp p hp)
      simp [← hpa, this]
    show (List.intercalate ['\n']
        (((splitNl s.toList).map pyStripList).filter (fun line => line ≠ []))).asString = ""
    rw [hfilter]
    rfl

/-- Witness for C5 (amended): the whitespace-only output `" \n\t"` cleans
to the empty string. -/
theorem extract_text_no_text_amended_witness :
    ImageProcessor.extract_text_from_image (ImageProcessor.OcrResult.ok " \n\t") = "" :=
  extract_text_no_text_amended.2 " \n\t" (by decide) (by decide)

namespace EmailSender

/-- Outcome of the SMTP block of `send_report_email` (connect, `starttls`,
`login`, `send_message`): either it completes or some step raises. -/
inductive SmtpOutcome where
  | ok : SmtpOutcome
  | raises : SmtpOutcome

/-- Result of `send_report_email` together with whether the SMTP transport
block was entered at all. -/
structure SendOutcome where
  result : Bool
  transportAttempted : Bool

/-- Python truthiness of an `os.getenv` result: `None` (unset variable)
and the empty string are falsy. -/
def envTruthy : Option String → Bool
  | none => false
  | some s => s != ""

/-- `EmailSender.send_report_email` (email_sender.py lines 39-80).
`sender_email` / `sender_password` come from the environment (lines
32-33); if either is falsy the function returns `False` before any
transport (line 52-54).  Otherwise the message is built (a total
computation) and the SMTP block runs; any exception there is caught and
yields `False` (lines 78-80). -/
def send_report_email (sender_email sender_password : Option String)
    (transport : SmtpOutcome)
    (_recipient_email _report_content _subject : String) : SendOutcome :=
  if !envTruthy sender_email || !envTruthy sender_password then
    { result := false, transportAttempted := false }
  else
    match transport with
    | SmtpOutcome.ok => { result := true, transportAttempted := true }
    | SmtpOutcome.raises => { result := false, transportAttempted := true }

end EmailSender

/-- C7: `send_report_email` returns `false` immediately, without
attempting any SMTP transport, whenever the sender address or the sender
password is absent (falsy) in configuration; and for every recipient,
body and subject it returns `false` rather than raising whenever the
transport block throws. -/
theorem send_report_email_guard :
    (∀ (se sp : Option String) (t : EmailSender.SmtpOutcome) (r b s : String),
      (EmailSender.envTruthy se = false ∨ EmailSender.envTruthy sp = false) →
      EmailSender.send_report_email se sp t r b s =
        { result := false, transportAttempted := false }) ∧
    (∀ (se sp : Option String) (r b s : String),
      (EmailSender.send_report_email se sp EmailSender.SmtpOutcome.raises r b s).result =
        false) := by
  constructor
  · intro se sp t r b s h
    rcases h with h | h <;> simp [EmailSender.send_report_email, h]
  · intro se sp r b s
    cases h : (!EmailSender.envTruthy se || !EmailSender.envTruthy sp) <;>
      simp [EmailSender.send_report_email, h]

/-- Witness for C7: with the sender address unset, delivery fails without
entering the transport block; with credentials set and a raising
transport, delivery returns `false`. -/
theorem send_report_email_guard_witness :
    EmailSender.send_report_email none (some "pw") EmailSender.SmtpOutcome.ok
        "r@x.co" "body" "subj" = { result := false, transportAttempted := false } ∧
    (EmailSender.send_report_email (some "me@x.co") (some "pw")
        EmailSender.SmtpOutcome.raises "r@x.co" "body" "subj").result = false :=
  ⟨send_report_email_guard.1 none (some "pw") EmailSender.SmtpOutcome.ok
      "r@x.co" "body" "subj" (Or.inl rfl),
   send_report_email_guard.2 (some "me@x.co") (some "pw") "r@x.co" "body" "subj"⟩

/-- ASCII letter: the class [a-zA-Z]. -/
def isAsciiAlpha (c : Char) : Bool :=
  ('a' ≤ c && c ≤ 'z') || ('A' ≤ c && c ≤ 'Z')

/-- ASCII digit: the class [0-9]. -/
def isAsciiDigit (c : Char) : Bool :=
  '0' ≤ c && c ≤ '9'

/-- The local-part class [a-zA-Z0-9._%+-] of the validation pattern. -/
def isLocalChar (c : Char) : Bool :=
  isAsciiAlpha c || isAsciiDigit c || c == '.' || c == '_' || c == '%' || c == '+' || c == '-'

/-- The domain class [a-zA-Z0-9.-] of the validation pattern. -/
def isDomainChar (c : Char) : Bool :=
  isAsciiAlpha c || isAsciiDigit c || c == '.' || c == '-'

namespace EmailSender

/-- The sub-pattern [a-zA-Z0-9.-]+\.[a-zA-Z]{2,} matched against the whole
of `rest`: since the TLD letters admit no dot, the pattern's dot must be
the *last* dot of the string, so split there and check both sides.  The
string is reversed, the reversed TLD is the maximal dot-free prefix, the
reversed domain is what follows the dot. -/
def matchTail (rest : List Char) : Bool :=
  ((rest.reverse.dropWhile (fun c => c != '.')).headD ' ' == '.') &&
    !(rest.reverse.dropWhile (fun c => c != '.')).isEmpty &&
    decide (2 ≤ (rest.reverse.takeWhile (fun c => c != '.')).length) &&
    (rest.reverse.takeWhile (fun c => c != '.')).all isAsciiAlpha &&
    !((rest.reverse.dropWhile (fun c => c != '.')).tail).isEmpty &&
    ((rest.reverse.dropWhile (fun c => c != '.')).tail).all isDomainChar

/-- The pattern body [a-zA-Z0-9._%+-]+@[a-zA-Z0-9.-]+\.[a-zA-Z]{2,}
matched against the whole of `s`: no character class contains `@`, so the
pattern's `@` must be the *first* `@` of the string; the local part is
the maximal `@`-free prefix. -/
def matchEmailCore (s : List Char) : Bool :=
  ((s.dropWhile (fun c => c != '@')).headD ' ' == '@') &&
    !(s.takeWhile (fun c => c != '@')).isEmpty &&
    (s.takeWhile (fun c => c != '@')).all isLocalChar &&
    matchTail ((s.dropWhile (fun c => c != '@')).tail)

/-- `EmailSender.validate_email` (email_sender.py lines 159-173):
`re.match` of the anchored pattern
`^[a-zA-Z0-9._%+-]+@[a-zA-Z0-9.-]+\.[a-zA-Z]{2,}$`.  Python's `$`
(without `re.MULTILINE`) matches at the end of the string or immediately
before a newline that ends the string; since a newline belongs to no
character class of the pattern, the pattern matches `email` exactly when
its body matches `email` with one final newline removed (when
present). -/
def validate_email (email : String) : Bool :=
  matchEmailCore
    (if email.toList.getLast? = some '\n' then email.toList.dropLast else email.toList)

end EmailSender

/-- Defined from the spec's words (claims C6/C9, for comparison with the
source-derived `EmailSender.validate_email`): the string itself consists
of a local part of one or more characters from [A-Za-z0-9._%+-], then
`@`, then a domain of one or more characters from [A-Za-z0-9.-], then a
dot, then a TLD of at least two letters. -/
def emailShapeSpec (email : String) : Prop :=
  ∃ lpart dom tld : List Char,
    email.toList = lpart ++ '@' :: (dom ++ '.' :: tld) ∧
    lpart ≠ [] ∧ lpart.all isLocalChar = true ∧
    dom ≠ [] ∧ dom.all isDomainChar = true ∧
    2 ≤ tld.length ∧ tld.all isAsciiAlpha = true

theorem takeWhile_append_all {p : Char → Bool} :
    ∀ (l : List Char) (x : Char) (r : List Char), (∀ c ∈ l, p c = true) → p x = false →
      (l ++ x :: r).takeWhile p = l ∧ (l ++ x :: r).dropWhile p = x :: r := by
  intro l
  induction l with
  | nil =>
    intro x r _ hx
    constructor
    · simp [List.takeWhile_cons, hx]
    · simp [List.dropWhile_cons, hx]
  | cons a l ih =>
    intro x r h hx
    have ha : p a = true := h a (List.mem_cons_self a l)
    have hrest := ih x r (fun c hc => h c (List.mem_cons_of_mem a hc)) hx
    constructor
    · simp only [List.cons_append, List.takeWhile_cons, ha, if_true]
      rw [hrest.1]
    · simp only [List.cons_append, List.dropWhile_cons, ha, if_true]
      exact hrest.2

theorem isLocalChar_ne_at {c : Char} (h : isLocalChar c = true) : (c != '@') = true := by
  cases hc : c == '@' with
  | false => simp [bne, hc]
  | true =>
    have hcc : c = '@' := beq_iff_eq.mp hc
    subst hcc
    exact absurd h (by decide)

theorem isAsciiAlpha_ne_dot {c : Char} (h : isAsciiAlpha c = true) : (c != '.') = true := by
  cases hc : c == '.' with
  | false => simp [bne, hc]
  | true =>
    have hcc : c = '.' := beq_iff_eq.mp hc
    subst hcc
    exact absurd h (by decide)

/-- `matchTail` recognizes exactly the decompositions
`dom ++ '.' :: tld` with a non-empty all-domain-class `dom` and an
all-letter TLD of length at least two. -/
theorem matchTail_iff (rest : List Char) :
    EmailSender.matchTail rest = true ↔
      ∃ dom tld : List Char, rest = dom ++ '.' :: tld ∧
        dom ≠ [] ∧ dom.all isDomainChar = true ∧
        2 ≤ tld.length ∧ tld.all isAsciiAlpha = true := by
  constructor
  · intro h
    unfold EmailSender.matchTail at h
    simp only [Bool.and_eq_true, beq_iff_eq, decide_eq_true_eq, Bool.not_eq_true',
      List.isEmpty_eq_false] at h
    obtain ⟨⟨⟨⟨⟨hhead, hDne⟩, hlen⟩, halpha⟩, htailne⟩, htail⟩ := h
    obtain ⟨c, domRev, hcons⟩ := List.exists_cons_of_ne_nil hDne
    rw [hcons] at hhead htailne htail
    rw [List.headD_cons] at hhead
    rw [List.tail_cons] at htailne htail
    subst hhead
    have hsplit := List.takeWhile_append_dropWhile (fun c => c != '.') rest.reverse
    rw [hcons] at hsplit
    refine ⟨domRev.reverse, (rest.reverse.takeWhile (fun c => c != '.')).reverse,
      ?_, ?_, ?_, ?_, ?_⟩
    · have hrev := congrArg List.reverse hsplit
      rw [List.reverse_reverse] at hrev
      have hid : (rest.reverse.takeWhile (fun c => c != '.') ++ '.' :: domRev).reverse =
          domRev.reverse ++ '.' :: (rest.reverse.takeWhile (fun c => c != '.')).reverse := by
        simp [List.reverse_append, List.reverse_cons, List.append_assoc]
      exact hrev.symm.trans hid
    · simpa [List.reverse_eq_nil_iff] using htailne
    · rw [List.all_reverse]; exact htail
    · rw [List.length_reverse]; exact hlen
    · rw [List.all_reverse]; exact halpha
  · rintro ⟨dom, tld, hrest, hdomne, hdom, hlen, halpha⟩
    have halpha' : ∀ c ∈ tld.reverse, ((c != '.') : Bool) = true := by
      intro c hc
      have hall : tld.reverse.all isAsciiAlpha = true := by
        rw [List.all_reverse]; exact halpha
      exact isAsciiAlpha_ne_dot (List.all_eq_true.mp hall c hc)
    have hrev : rest.reverse = tld.reverse ++ '.' :: dom.reverse := by
      rw [hrest]
      simp [List.reverse_append, List.reverse_cons, List.append_assoc]
    have htw := takeWhile_append_all tld.reverse '.' dom.reverse halpha' (by decide)
    unfold EmailSender.matchTail
    rw [hrev, htw.1, htw.2]
    simp [hdomne, hdom, hlen, halpha, List.all_reverse, List.length_reverse,
      List.reverse_eq_nil_iff, List.isEmpty_eq_false]

/-- `matchEmailCore` recognizes exactly the documented email shape. -/
theorem matchEmailCore_iff (s : List Char) :
    EmailSender.matchEmailCore s = true ↔
      ∃ lpart dom tld : List Char,
        s = lpart ++ '@' :: (dom ++ '.' :: tld) ∧
        lpart ≠ [] ∧ lpart.all isLocalChar = true ∧
        dom ≠ [] ∧ dom.all isDomainChar = true ∧
        2 ≤ tld.length ∧ tld.all isAsciiAlpha = true := by
  constructor
  · intro h
    unfold EmailSender.matchEmailCore at h
    simp only [Bool.and_eq_true, beq_iff_eq, Bool.not_eq_true',
      List.isEmpty_eq_false] at h
    obtain ⟨⟨⟨hhead, hTne⟩, hlocal⟩, htail⟩ := h
    have hDne : s.dropWhile (fun c => c != '@') ≠ [] := by
      intro hnil
      rw [hnil] at hhead
      simp at hhead
    obtain ⟨c, rest, hcons⟩ := List.exists_cons_of_ne_nil hDne
    rw [hcons] at hhead htail
    rw [List.headD_cons] at hhead
    rw [List.tail_cons] at htail
    subst hhead
    obtain ⟨dom, tld, hrest, hdomne, hdom, hlen, halpha⟩ := (matchTail_iff rest).mp htail
    have hsplit := List.takeWhile_append_dropWhile (fun c => c != '@') s
    rw [hcons] at hsplit
    refine ⟨s.takeWhile (fun c => c != '@'), dom, tld, ?_, hTne, hlocal,
      hdomne, hdom, hlen, halpha⟩
    have hid : s.takeWhile (fun c => c != '@') ++ '@' :: rest =
        s.takeWhile (fun c => c != '@') ++ '@' :: (dom ++ '.' :: tld) := by
      rw [hrest]
    exact hsplit.symm.trans hid
  · rintro ⟨lpart, dom, tld, hs, hlpne, hlocal, hdomne, hdom, hlen, halpha⟩
    have hlp : ∀ c ∈ lpart, ((c != '@') : Bool) = true := fun c hc =>
      isLocalChar_ne_at (List.all_eq_true.mp hlocal c hc)
    have htw := takeWhile_append_all lpart '@' (dom ++ '.' :: tld) hlp (by decide)
    unfold EmailSender.matchEmailCore
    rw [hs, htw.1, htw.2]
    rw [List.headD_cons, List.tail_cons]
    simp [hlpne, hlocal, List.isEmpty_eq_false,
      (matchTail_iff (dom ++ '.' :: tld)).mpr ⟨dom, tld, rfl, hdomne, hdom, hlen, halpha⟩]

theorem getLast?_email_decomp (lpart dom tld : List Char) (h : tld ≠ []) :
    (lpart ++ '@' :: (dom ++ '.' :: tld)).getLast? = tld.getLast? := by
  cases tld with
  | nil => exact absurd rfl h
  | cons t0 t' =>
    rw [List.getLast?_append_cons, ← List.cons_append, List.getLast?_append_cons,
      List.getLast?_cons_cons]

/-- A string of the documented email shape ends in a letter. -/
theorem emailShapeSpec_getLast {u : String} (h : emailShapeSpec u) :
    ∃ c, u.toList.getLast? = some c ∧ isAsciiAlpha c = true := by
  obtain ⟨lpart, dom, tld, heq, -, -, -, -, hlen, halpha⟩ := h
  have htldne : tld ≠ [] := by
    intro hnil; rw [hnil] at hlen; simp at hlen
  cases hg : tld.getLast? with
  | none => exact absurd (List.getLast?_eq_none_iff.mp hg) htldne
  | some c =>
    refine ⟨c, ?_, ?_⟩
    · rw [heq, getLast?_email_decomp _ _ _ htldne, hg]
    · have hmem : c ∈ tld.getLast? := Option.mem_def.mpr hg
      have hconcat := List.dropLast_append_getLast? c hmem
      rw [← hconcat, List.all_append] at halpha
      simp only [Bool.and_eq_true] at halpha
      simpa using halpha.2

/-- Counterexample to C6: `"a@b.co\n"` (trailing newline) validates true —
the Python end anchor matches just before a final newline — but the
string is not of the documented shape: its last character is a newline,
not a letter.  So validation is not *exactly* the documented shape. -/
theorem validate_email_shape_cx :
    EmailSender.validate_email "a@b.co\n" = true ∧ ¬ emailShapeSpec "a@b.co\n" := by
  refine ⟨rfl, ?_⟩
  intro h
  obtain ⟨c, hc, halpha⟩ := emailShapeSpec_getLast h
  have hl : ("a@b.co\n" : String).toList.getLast? = some '\n' := rfl
  rw [hl] at hc
  injection hc with hc'
  rw [← hc'] at halpha
  exact absurd halpha (by decide)

/-- C6 (amended): `validate_email` returns true exactly for strings of the
documented shape — a local part of one or more characters from
[A-Za-z0-9._%+-], then `@`, then a domain of one or more characters from
[A-Za-z0-9.-], then a dot, then a TLD of at least two letters —
*optionally followed by one final newline* (the end anchor of the Python
pattern also matches just before a newline that ends the string).  The
four documented examples behave as claimed. -/
theorem validate_email_amended :
    (∀ s : String, EmailSender.validate_email s = true ↔
      (emailShapeSpec s ∨ ∃ t : String, emailShapeSpec t ∧ s = t ++ "\n")) ∧
    EmailSender.validate_email "a@b.co" = true ∧
    EmailSender.validate_email "a.b+c@sub.domain.io" = true ∧
    EmailSender.validate_email "not-an-email" = false ∧
    EmailSender.validate_email "a@b" = false := by
  refine ⟨?_, rfl, rfl, rfl, rfl⟩
  intro s
  unfold EmailSender.validate_email
  by_cases hnl : s.toList.getLast? = some '\n'
  · rw [if_pos hnl]
    constructor
    · intro h
      obtain ⟨lp, dom, tld, heq, h2, h3, h4, h5, h6, h7⟩ := (matchEmailCore_iff _).mp h
      refine Or.inr ⟨(s.toList.dropLast).asString,
        ⟨lp, dom, tld, heq, h2, h3, h4, h5, h6, h7⟩, ?_⟩
      have hmem : '\n' ∈ s.toList.getLast? := Option.mem_def.mpr hnl
      have hconcat := List.dropLast_append_getLast? '\n' hmem
      apply String.ext
      show s.data = ((s.toList.dropLast).asString ++ "\n").data
      have hd : ((s.toList.dropLast).asString ++ "\n").data = s.toList.dropLast ++ ['\n'] := rfl
      rw [hd, hconcat]
      rfl
    · rintro (hshape | ⟨t, hshape, hst⟩)
      · obtain ⟨c, hc, halpha⟩ := emailShapeSpec_getLast hshape
        rw [hnl] at hc
        injection hc with hc'
        rw [← hc'] at halpha
        exact absurd halpha (by decide)
      · have hdata : s.toList = t.toList ++ ['\n'] := by
          rw [hst]; cases t; rfl
        rw [hdata, List.dropLast_concat]
        exact (matchEmailCore_iff t.toList).mpr hshape
  · rw [if_neg hnl]
    constructor
    · intro h
      exact Or.inl ((matchEmailCore_iff s.toList).mp h)
    · rintro (hshape | ⟨t, hshape, hst⟩)
      · exact (matchEmailCore_iff s.toList).mpr hshape
      · exfalso
        apply hnl
        have hdata : s.toList = t.toList ++ ['\n'] := by
          rw [hst]; cases t; rfl
        rw [hdata, List.getLast?_concat]

/-- Witness for C6 (amended): the accepted address `"a@b.co"` is of the
documented shape. -/
theorem validate_email_amended_witness :
    emailShapeSpec "a@b.co" ∨ ∃ t : String, emailShapeSpec t ∧ ("a@b.co" : String) = t ++ "\n" :=
  (validate_email_amended.1 "a@b.co").mp rfl

/-- Counterexample to C9: `"a@b.co\n"` validates true, but appending one
more final newline gives `"a@b.co\n\n"`, which validates false — the end
anchor only matches before the *last* newline, and the TLD cannot contain
the first one.  So appending a newline does not preserve validation for
every accepted string. -/
theorem validate_email_trailing_newline_cx :
    EmailSender.validate_email "a@b.co\n" = true ∧
      EmailSender.validate_email ("a@b.co\n" ++ "\n") = false :=
  ⟨rfl, rfl⟩

/-- C9 (amended): for every accepted string that does not already end in a
newline, appending a single final newline still validates true, because
the pattern's end anchor matches immediately before a final newline; so
validation does not guarantee that the accepted string itself has the
documented shape. -/
theorem validate_email_trailing_newline (s : String)
    (hnl : s.toList.getLast? ≠ some '\n')
    (h : EmailSender.validate_email s = true) :
    EmailSender.validate_email (s ++ "\n") = true := by
  have hdata : (s ++ "\n").toList = s.toList ++ ['\n'] := by cases s; rfl
  unfold EmailSender.validate_email at h ⊢
  rw [hdata, List.getLast?_concat, if_pos rfl, List.dropLast_concat]
  rwa [if_neg hnl] at h

/-- Witness for C9 (amended): `"a@b.co"` does not end in a newline,
validates true, and `"a@b.co" ++ "\n"` still validates true. -/
theorem validate_email_trailing_newline_witness :
    EmailSender.validate_email ("a@b.co" ++ "\n") = true :=
  validate_email_trailing_newline "a@b.co" (by decide) rfl

/-- Python `d.get(key, default)` on an association-list dict (the dicts
the sources build have distinct keys). -/
def pyDictGet (d : List (String × Json)) (key : String) (dflt : Json) : Json :=
  match d with
  | [] => dflt
  | (k, v) :: rest => if k == key then v else pyDictGet rest key dflt

mutual

/-- Python `repr` restricted to the JSON-like values above.  Strings are
quoted with a plain single quote (Python's escaping and quote selection
for strings containing quotes are not reproduced; the sources only ever
interpolate strings and integers). -/
def pyRepr : Json → String
  | Json.null => "None"
  | Json.bool true => "True"
  | Json.bool false => "False"
  | Json.num n => toString n
  | Json.str s => "\x27" ++ s ++ "\x27"
  | Json.arr xs => "[" ++ String.intercalate ", " (pyReprList xs) ++ "]"
  | Json.obj fs => "\x7b" ++ String.intercalate ", " (pyReprFields fs) ++ "\x7d"

def pyReprList : List Json → List String
  | [] => []
  | x :: xs => pyRepr x :: pyReprList xs

def pyReprFields : List (String × Json) → List String
  | [] => []
  | (k, v) :: fs => ("\x27" ++ k ++ "\x27: " ++ pyRepr v) :: pyReprFields fs

end

/-- Python `str(value)` as used by f-string interpolation: strings are
unquoted, everything else renders as `repr`. -/
def pyStr : Json → String
  | Json.str s => s
  | j => pyRepr j

/-- Python truthiness of a JSON-like value. -/
def pyTruthy : Json → Bool
  | Json.null => false
  | Json.bool b => b
  | Json.num n => n != 0
  | Json.str s => s != ""
  | Json.arr xs => !xs.isEmpty
  | Json.obj fs => !fs.isEmpty

/-- Python iteration over a value: lists yield their elements, strings
their characters (as one-character strings), dicts their keys; `None`,
booleans and numbers are not iterable and raise `TypeError` (`none`). -/
def iterElems : Json → Option (List Json)
  | Json.arr xs => some xs
  | Json.str s => some (s.toList.map fun c => Json.str c.toString)
  | Json.obj fs => some (fs.map fun p => Json.str p.1)
  | _ => none

/-- Python `.get` exists only on dicts: calling it on any other iterated
entry raises `AttributeError` (`none`). -/
def entryFields : Json → Option (List (String × Json))
  | Json.obj fs => some fs
  | _ => none

namespace TextProcessor

/-- The f-string block of `generate_report` for one `requirements_analysis`
entry (text_processor.py lines 164-174), given the entry's fields and the
already-iterated `suggestions` values. -/
def itemBlockText (i : Nat) (fields : List (String × Json)) (suggs : List Json) : String :=
  "\n### " ++ toString i ++ ". " ++ pyStr (pyDictGet fields "requirement" (Json.str "N/A")) ++
    "\n- **상태**: " ++
    (if pyTruthy (pyDictGet fields "satisfied" (Json.bool false)) then "✅ 만족" else "❌ 미만족") ++
    "\n- **점수**: " ++ pyStr (pyDictGet fields "score" (Json.num 0)) ++ "/100" ++
    "\n- **피드백**: " ++ pyStr (pyDictGet fields "feedback" (Json.str "N/A")) ++
    "\n- **개선 제안**:\n" ++
    String.join (suggs.map fun sg => "  - " ++ pyStr sg ++ "\n")

/-- The `enumerate(..., 1)` loop of `generate_report`: one block per entry,
indices starting at 1; a non-dict entry or a non-iterable `suggestions`
value raises (`none`). -/
def itemBlocks : Nat → List Json → Option String
  | _, [] => some ""
  | i, a :: rest =>
    match entryFields a with
    | none => none
    | some fields =>
      match iterElems (pyDictGet fields "suggestions" (Json.arr [])) with
      | none => none
      | some suggs =>
        match itemBlocks (i + 1) rest with
        | none => none
        | some restStr => some (itemBlockText i fields suggs ++ restStr)

/-- `TextProcessor.generate_report` (text_processor.py lines 146-186) on a
dict argument.  `none` models a raised exception (iterating a non-iterable
value, or `.get` on a non-dict entry); every lookup carries the source's
default. -/
def generate_report (analysis_result : List (String × Json)) : Option String :=
  match iterElems (pyDictGet analysis_result "requirements_analysis" (Json.arr [])) with
  | none => none
  | some items =>
    match itemBlocks 1 items with
    | none => none
    | some itemsStr =>
      match iterElems (pyDictGet analysis_result "improvement_suggestions" (Json.arr [])) with
      | none => none
      | some suggs =>
        some ("\n# 수행평가 검사 보고서\n\n## 📊 전체 만족도: " ++
          pyStr (pyDictGet analysis_result "overall_score" (Json.num 0)) ++
          "/100\n\n## 📋 항목별 분석 결과\n" ++ itemsStr ++
          "\n## 💡 전체 피드백\n" ++
          pyStr (pyDictGet analysis_result "general_feedback" (Json.str "N/A")) ++
          "\n\n## 🔧 개선 제안\n" ++
          String.join (suggs.map fun sg => "- " ++ pyStr sg ++ "\n"))

end TextProcessor

/-- One entry of the analysis data model (spec §3). -/
structure RequirementAnalysis where
  requirement : String
  satisfied : Bool
  score : Int
  feedback : String
  suggestions : List String

/-- The aggregate analysis data model (spec §3). -/
structure AnalysisResult where
  overall_score : Int
  requirements_analysis : List RequirementAnalysis
  general_feedback : String
  improvement_suggestions : List String

/-- A RequirementAnalysis as the JSON dict of the analysis schema. -/
def RequirementAnalysis.toJson (r : RequirementAnalysis) : Json :=
  Json.obj
    [("requirement", Json.str r.requirement),
     ("satisfied", Json.bool r.satisfied),
     ("score", Json.num r.score),
     ("feedback", Json.str r.feedback),
     ("suggestions", Json.arr (r.suggestions.map Json.str))]

/-- An AnalysisResult as the dict `generate_report` receives. -/
def AnalysisResult.toDict (a : AnalysisResult) : List (String × Json) :=
  [("overall_score", Json.num a.overall_score),
   ("requirements_analysis", Json.arr (a.requirements_analysis.map RequirementAnalysis.toJson)),
   ("general_feedback", Json.str a.general_feedback),
   ("improvement_suggestions", Json.arr (a.improvement_suggestions.map Json.str))]

/-- C8: `generate_report` is a pure deterministic function of its
AnalysisResult argument — the embedding is a function of the argument
alone, mirroring that the Python code reads no ambient state — and on an
AnalysisResult whose `requirements_analysis` is empty it yields, without
error, the report made of the overall-score line and the section headings
with no per-item subsection between them (the empty middle is the `""`
below). -/
theorem generate_report_pure_empty :
    (∀ a : AnalysisResult, TextProcessor.generate_report a.toDict =
      TextProcessor.generate_report a.toDict) ∧
    (∀ a : AnalysisResult, a.requirements_analysis = [] →
      TextProcessor.generate_report a.toDict =
        some ("\n# 수행평가 검사 보고서\n\n## 📊 전체 만족도: " ++ toString a.overall_score ++
          "/100\n\n## 📋 항목별 분석 결과\n" ++ "" ++
          "\n## 💡 전체 피드백\n" ++ a.general_feedback ++
          "\n\n## 🔧 개선 제안\n" ++
          String.join (a.improvement_suggestions.map fun sg => "- " ++ sg ++ "\n"))) := by
  refine ⟨fun a => rfl, ?_⟩
  intro a h
  obtain ⟨os, ra, gf, is⟩ := a
  change ra = [] at h
  subst h
  have hjoin : (is.map Json.str).map (fun sg => "- " ++ pyStr sg ++ "\n") =
      is.map (fun sg => "- " ++ sg ++ "\n") := by
    rw [List.map_map]
    rfl
  calc TextProcessor.generate_report (AnalysisResult.toDict ⟨os, [], gf, is⟩)
      = some ("\n# 수행평가 검사 보고서\n\n## 📊 전체 만족도: " ++ toString os ++
          "/100\n\n## 📋 항목별 분석 결과\n" ++ "" ++
          "\n## 💡 전체 피드백\n" ++ gf ++
          "\n\n## 🔧 개선 제안\n" ++
          String.join ((is.map Json.str).map fun sg => "- " ++ pyStr sg ++ "\n")) := rfl
    _ = _ := by rw [hjoin]

/-- Witness for C8: the empty-items report at a concrete AnalysisResult. -/
theorem generate_report_pure_empty_witness :
    TextProcessor.generate_report
        (AnalysisResult.toDict ⟨85, [], "전반적으로 좋음", ["예시 추가"]⟩) =
      some ("\n# 수행평가 검사 보고서\n\n## 📊 전체 만족도: " ++ toString (85 : Int) ++
        "/100\n\n## 📋 항목별 분석 결과\n" ++ "" ++
        "\n## 💡 전체 피드백\n" ++ "전반적으로 좋음" ++
        "\n\n## 🔧 개선 제안\n" ++
        String.join (["예시 추가"].map fun sg => "- " ++ sg ++ "\n")) :=
  generate_report_pure_empty.2 ⟨85, [], "전반적으로 좋음", ["예시 추가"]⟩ rfl

/-- Counterexample to C10: a dict whose `requirements_analysis` entries
are all dicts can still make `generate_report` raise — here the single
entry's `suggestions` value is the number `5`, which Python cannot
iterate, so the per-entry loop raises `TypeError` (modelled `none`). -/
theorem generate_report_total_cx :
    TextProcessor.generate_report
      [("requirements_analysis", Json.arr [Json.obj [("suggestions", Json.num 5)]])] =
      none := rfl

/-- C10 (amended): `generate_report` returns a string without raising for
every dict input whose `requirements_analysis` value (under the default
`[]`) is a list of dicts and whose iterated values — each entry's
`suggestions` and the top-level `improvement_suggestions`, under the
default `[]` — are lists; missing fields take defaults: overall_score and
per-item score render as 0, requirement/feedback/general_feedback render
as "N/A", satisfied defaults to false (rendered as unsatisfied), and
missing suggestion lists are treated as empty, as the concrete
defaults-only report shows. -/
theorem generate_report_total_amended :
    (∀ r : List (String × Json),
      (∃ items : List Json,
        pyDictGet r "requirements_analysis" (Json.arr []) = Json.arr items ∧
        ∀ a ∈ items, ∃ fields : List (String × Json), a = Json.obj fields ∧
          ∃ ss : List Json, pyDictGet fields "suggestions" (Json.arr []) = Json.arr ss) →
      (∃ gs : List Json,
        pyDictGet r "improvement_suggestions" (Json.arr []) = Json.arr gs) →
      ∃ out : String, TextProcessor.generate_report r = some out) ∧
    TextProcessor.generate_report [("requirements_analysis", Json.arr [Json.obj []])] =
      some "\n# 수행평가 검사 보고서\n\n## 📊 전체 만족도: 0/100\n\n## 📋 항목별 분석 결과\n\n### 1. N/A\n- **상태**: ❌ 미만족\n- **점수**: 0/100\n- **피드백**: N/A\n- **개선 제안**:\n\n## 💡 전체 피드백\nN/A\n\n## 🔧 개선 제안\n" := by
  constructor
  · intro r ⟨items, hitems, hentries⟩ ⟨gs, hgs⟩
    have hblocks : ∀ (items' : List Json),
        (∀ a ∈ items', ∃ fields, a = Json.obj fields ∧
          ∃ ss, pyDictGet fields "suggestions" (Json.arr []) = Json.arr ss) →
        ∀ i : Nat, ∃ bs : String, TextProcessor.itemBlocks i items' = some bs := by
      intro items'
      induction items' with
      | nil => intro _ i; exact ⟨"", rfl⟩
      | cons a rest ih =>
        intro hent i
        obtain ⟨fields, hfa, ss, hss⟩ := hent a (List.mem_cons_self a rest)
        obtain ⟨bs, hbs⟩ := ih (fun x hx => hent x (List.mem_cons_of_mem a hx)) (i + 1)
        subst hfa
        refine ⟨TextProcessor.itemBlockText i fields ss ++ bs, ?_⟩
        simp [TextProcessor.itemBlocks, entryFields, iterElems, hss, hbs]
    obtain ⟨bs, hbs⟩ := hblocks items hentries 1
    refine ⟨"\n# 수행평가 검사 보고서\n\n## 📊 전체 만족도: " ++
      pyStr (pyDictGet r "overall_score" (Json.num 0)) ++
      "/100\n\n## 📋 항목별 분석 결과\n" ++ bs ++
      "\n## 💡 전체 피드백\n" ++
      pyStr (pyDictGet r "general_feedback" (Json.str "N/A")) ++
      "\n\n## 🔧 개선 제안\n" ++
      String.join (gs.map fun sg => "- " ++ pyStr sg ++ "\n"), ?_⟩
    unfold TextProcessor.generate_report
    rw [hitems, hgs]
    simp [iterElems, hbs]
  · rfl

/-- Witness for C10 (amended): a defaults-only entry plus one improvement
suggestion produces a report. -/
theorem generate_report_total_amended_witness :
    ∃ out : String, TextProcessor.generate_report
      [("requirements_analysis", Json.arr [Json.obj []]),
       ("improvement_suggestions", Json.arr [Json.str "x"])] = some out :=
  generate_report_total_amended.1
    [("requirements_analysis", Json.arr [Json.obj []]),
     ("improvement_suggestions", Json.arr [Json.str "x"])]
    ⟨[Json.obj []], rfl, by
      intro a ha
      have haa : a = Json.obj [] := List.mem_singleton.mp ha
      subst haa
      exact ⟨[], rfl, [], rfl⟩⟩
    ⟨[Json.str "x"], rfl⟩

end CheckMate
